import Mathlib

/-!
Verification of the PulsePress ingestion pipeline (fetch/process stages,
content quality gate, deduplicator, summarizer fallback, trending/featured
scoring, slug derivation).

The TypeScript sources are embedded shallowly:

* JavaScript strings are modelled as Lean `String`/`List Char`.  All inputs
  appearing in concrete theorems are ASCII, where the JS semantics of
  `toLowerCase`, `\s`, `\w`, `\d`, `.length` and UTF-16 agree with the model.
  `String.replace(/re/g, r)` calls are modelled by explicit left-to-right
  scanners that mirror the exact regular expressions of the source; each
  scanner documents the regex it implements.
* External collaborators (the SQL store, BullMQ, axios, cheerio, DOMPurify,
  Readability) are modelled as explicit data (a `List Article` store) or as
  oracle parameters; a query that may throw is an `Except Unit` value.
* `crypto.md5` is modelled as an injective fingerprint: two hashes are equal
  exactly when the hashed (lower-cased, trimmed) strings are equal; hash
  collisions are outside the model.
* Timestamps (`Date.getTime()`) are integers in milliseconds; a date string
  is represented by its epoch value.
-/

set_option linter.unusedVariables false
set_option maxRecDepth 100000

namespace PulsePress

/-- Decidable equality for `Except`, used to evaluate job outcomes on
concrete inputs. -/
instance {α β : Type} [DecidableEq α] [DecidableEq β] : DecidableEq (Except α β) :=
  fun a b =>
    match a, b with
    | .error x, .error y =>
      if h : x = y then .isTrue (h ▸ rfl)
      else .isFalse (fun hc => h (by cases hc; rfl))
    | .ok x, .ok y =>
      if h : x = y then .isTrue (h ▸ rfl)
      else .isFalse (fun hc => h (by cases hc; rfl))
    | .error _, .ok _ => .isFalse (fun hc => Except.noConfusion hc)
    | .ok _, .error _ => .isFalse (fun hc => Except.noConfusion hc)

/-- JavaScript whitespace (`\s`) restricted to the ASCII range used by the
repository: space, tab, newline, carriage return, vertical tab, form feed. -/
def jsIsWs (c : Char) : Bool :=
  c == ' ' || c == '\t' || c == '\n' || c == '\r' || c == '\x0b' || c == '\x0c'

/-- JS `\w` word characters: ASCII letters, digits, underscore. -/
def isWordChar (c : Char) : Bool :=
  c.isAlpha || c.isDigit || c == '_'

/-- ASCII uppercase letter, JS `[A-Z]`. -/
def isUpperAZ (c : Char) : Bool := 'A' ≤ c && c ≤ 'Z'

/-- ASCII lowercase letter, JS `[a-z]`. -/
def isLowerAZ (c : Char) : Bool := 'a' ≤ c && c ≤ 'z'

/-- Left trim of JS `String.prototype.trim` (whitespace model above). -/
def trimLeftL (l : List Char) : List Char := l.dropWhile jsIsWs

/-- Right trim of JS `String.prototype.trim`. -/
def trimRightL (l : List Char) : List Char := (l.reverse.dropWhile jsIsWs).reverse

/-- JS `s.trim()`. -/
def trimL (l : List Char) : List Char := trimRightL (trimLeftL l)

/-- JS `s.trim()` on `String`. -/
def jsTrim (s : String) : String := ⟨trimL s.data⟩

/-- JS `s.toLowerCase()` on the ASCII fragment. -/
def lowerL (l : List Char) : List Char := l.map Char.toLower

/-- JS `s.toLowerCase()` on `String`. -/
def jsLower (s : String) : String := ⟨lowerL s.data⟩

/-- Does the list start with the given pattern. -/
def startsWithL : List Char → List Char → Bool
  | _, [] => true
  | [], _ :: _ => false
  | c :: cs, p :: ps => c == p && startsWithL cs ps

/-- Does the list end with the given pattern. -/
def endsWithL (l pat : List Char) : Bool := startsWithL l.reverse pat.reverse

/-- Does `l` contain `pat` as a contiguous substring (JS `includes`). -/
def containsL (pat : List Char) : List Char → Bool
  | [] => startsWithL [] pat
  | c :: rest => startsWithL (c :: rest) pat || containsL pat rest

/-- Case-insensitive substring test, JS `/pat/i.test(s)` for a literal
pattern (the pattern is supplied already lower-case). -/
def containsCI (s : String) (pat : String) : Bool :=
  containsL (lowerL pat.data) (lowerL s.data)

/-- Worker for `countOccurL`: `skip` counts characters of the current match
still to be passed over. -/
def countOccurGo (pat : List Char) : List Char → Nat → Nat
  | [], _ => 0
  | _ :: rest, skip + 1 => countOccurGo pat rest skip
  | c :: rest, 0 =>
    if startsWithL (c :: rest) pat && !pat.isEmpty then
      1 + countOccurGo pat rest (pat.length - 1)
    else countOccurGo pat rest 0

/-- Number of non-overlapping occurrences of `pat`, as counted by a global
JS regex for a literal pattern (leftmost match, then resume after it). -/
def countOccurL (pat : List Char) (l : List Char) : Nat := countOccurGo pat l 0

/-- Worker for `nonWsRuns`: `atRunStart` is true at the start of input and
after a whitespace character. -/
def nonWsRunsGo : List Char → Bool → Nat
  | [], _ => 0
  | c :: rest, atRunStart =>
    if jsIsWs c then nonWsRunsGo rest true
    else (if atRunStart then 1 else 0) + nonWsRunsGo rest false

/-- Number of maximal runs of non-whitespace characters. -/
def nonWsRuns (l : List Char) : Nat := nonWsRunsGo l true

/-- Length of the array produced by JS `s.split(/\s+/)`: one entry per
non-whitespace run, plus an empty entry for a leading and for a trailing
separator, and `[""]` (length 1) for the empty string. -/
def jsSplitWsLenL (l : List Char) : Nat :=
  match l with
  | [] => 1
  | c :: _ =>
    nonWsRuns l + (if jsIsWs c then 1 else 0) +
      (if jsIsWs (l.getLastD 'a') then 1 else 0)

/-- Worker for `collapseRunsWith`: `inRun` is true while inside a run of
`p`-characters whose replacement has already been emitted. -/
def collapseGo (p : Char → Bool) (r : Char) : List Char → Bool → List Char
  | [], _ => []
  | c :: rest, inRun =>
    if p c then
      if inRun then collapseGo p r rest true
      else r :: collapseGo p r rest true
    else c :: collapseGo p r rest false

/-- JS `s.replace(/p+/g, r)` for a character class `p` replaced by the single
character `r`: every maximal run of `p`-characters becomes one `r`. -/
def collapseRunsWith (p : Char → Bool) (r : Char) (l : List Char) : List Char :=
  collapseGo p r l false

/-- Worker for `stripTagsL`: `inTag` is true between a matched `<` and its
closing `>` (the replacement space is emitted at the `>`). -/
def stripTagsGo : List Char → Bool → List Char
  | [], _ => []
  | c :: rest, true =>
    if c = '>' then ' ' :: stripTagsGo rest false else stripTagsGo rest true
  | c :: rest, false =>
    if c = '<' && rest.contains '>' then stripTagsGo rest true
    else c :: stripTagsGo rest false

/-- JS `s.replace(/<[^>]*>/g, " ")`: every bracketed tag becomes one space; a
`<` with no later `>` starts no match (and then no later match exists either,
since no `>` remains). -/
def stripTagsL (l : List Char) : List Char := stripTagsGo l false

/-- Worker for `replaceAllL` (skip-counter as in `countOccurGo`). -/
def replaceAllGo (pat rep : List Char) : List Char → Nat → List Char
  | [], _ => []
  | _ :: rest, skip + 1 => replaceAllGo pat rep rest skip
  | c :: rest, 0 =>
    if startsWithL (c :: rest) pat && !pat.isEmpty then
      rep ++ replaceAllGo pat rep rest (pat.length - 1)
    else c :: replaceAllGo pat rep rest 0

/-- JS `s.replace(pat, rep)` with a global literal-string pattern
(case-sensitive). -/
def replaceAllL (pat rep : List Char) (l : List Char) : List Char :=
  replaceAllGo pat rep l 0

/-- Case-insensitive version of `startsWithL`; the pattern is supplied
already lower-case. -/
def startsWithCIL (l pat : List Char) : Bool := startsWithL (lowerL l) pat

/-- Worker for `removeMatchesCI` (skip-counter as in `countOccurGo`). -/
def removeMatchesGo (pats : List (List Char)) : List Char → Nat → List Char
  | [], _ => []
  | _ :: rest, skip + 1 => removeMatchesGo pats rest skip
  | c :: rest, 0 =>
    match pats.find? (fun p => !p.isEmpty && startsWithCIL (c :: rest) p) with
    | some p => removeMatchesGo pats rest (p.length - 1)
    | none => c :: removeMatchesGo pats rest 0

/-- JS `s.replace(/a|b|.../gi, "")` for literal alternatives: scan left to
right, at each position try the alternatives in order and delete the first
match.  Alternatives are supplied lower-case and non-empty. -/
def removeMatchesCI (pats : List (List Char)) (l : List Char) : List Char :=
  removeMatchesGo pats l 0

/-- Worker for `removeBracketsL`: `inBracket` is true between a matched `[`
and its closing `]`. -/
def removeBracketsGo : List Char → Bool → List Char
  | [], _ => []
  | c :: rest, true =>
    if c = ']' then removeBracketsGo rest false else removeBracketsGo rest true
  | c :: rest, false =>
    if c = '[' && (rest.takeWhile (fun d => !(d == '\n'))).contains ']' then
      removeBracketsGo rest true
    else c :: removeBracketsGo rest false

/-- JS `s.replace(/\[.*?\]/g, "")`: a lazy match from `[` to the first `]`
with no intervening newline (`.` does not cross lines); a `[` with no such
`]` is kept. -/
def removeBracketsL (l : List Char) : List Char := removeBracketsGo l false

/-- Sentence terminator characters of the summarizer regexes. -/
def isTerm (c : Char) : Bool := c == '.' || c == '!' || c == '?'

/-- Worker for `sentencesL`: `body` and `terms` hold the parts of the match
in progress ( `[^.!?]+` and `[.!?]+` respectively). -/
def sentGo : List Char → List Char → List Char → List (List Char)
  | [], _, terms => if terms.isEmpty then [] else [terms]
  | c :: rest, body, terms =>
    if isTerm c then
      if body.isEmpty && terms.isEmpty then sentGo rest [] []
      else sentGo rest [] (terms ++ body ++ [c])
    else
      if terms.isEmpty then sentGo rest (body ++ [c]) []
      else (terms) :: sentGo rest [c] []

/-- All matches of the JS global regex `/[^.!?]+[.!?]+/g`: a maximal run of
non-terminators followed by a maximal run of terminators; leading
terminators and trailing text with no terminator are not matched. -/
def sentencesL (l : List Char) : List (List Char) := sentGo l [] []

/-- Worker for `capMatchCount`: `prev` is true when the previous character is
a word character (so no `\b` precedes the position); `consuming` is true
inside the `[a-z]+` run of a match. -/
def capGo : List Char → Bool → Bool → Nat
  | [], _, _ => 0
  | c :: rest, _, true =>
    if isLowerAZ c then capGo rest true true
    else capGo rest (isWordChar c) false
  | c :: rest, prev, false =>
    if !prev && isUpperAZ c &&
        (match rest with | d :: _ => isLowerAZ d | [] => false) then
      1 + capGo rest true true
    else capGo rest (isWordChar c) false

/-- Number of matches of the JS global regex `/\b[A-Z][a-z]+/g`. -/
def capMatchCount (l : List Char) : Nat := capGo l false false

/-- Worker for `digitRuns`: `inRun` is true inside a digit run already
counted. -/
def digitRunsGo : List Char → Bool → Nat
  | [], _ => 0
  | c :: rest, inRun =>
    if c.isDigit then (if inRun then 0 else 1) + digitRunsGo rest true
    else digitRunsGo rest false

/-- Number of matches of the JS global regex `/\d+/g` (maximal digit runs). -/
def digitRuns (l : List Char) : Nat := digitRunsGo l false

/-- Rightmost index of `c`, if present. -/
def lastIdxOfL (c : Char) : List Char → Option Nat
  | [] => none
  | d :: rest =>
    match lastIdxOfL c rest with
    | some i => some (i + 1)
    | none => if d = c then some 0 else none

/-- JS `s.lastIndexOf(c)`: the rightmost index or `-1`. -/
def jsLastIdx (l : List Char) (c : Char) : Int :=
  match lastIdxOfL c l with
  | some i => (i : Int)
  | none => -1

/-- JS `Array.prototype.join(" ")`. -/
def joinWithSpaceL : List (List Char) → List Char
  | [] => []
  | [x] => x
  | x :: y :: rest => x ++ ' ' :: joinWithSpaceL (y :: rest)

/-- Does the list end in a sentence terminator (JS `/[.!?]$/.test`). -/
def endsTermL (l : List Char) : Bool :=
  match l.getLast? with
  | some c => isTerm c
  | none => false

/-- JS truthiness of a nullable string: `null`/`undefined` and `""` are
falsy. -/
def jsTruthy : Option String → Bool
  | none => false
  | some s => !s.data.isEmpty

/-- JS `a || d` for a nullable string `a` and default `d`. -/
def jsOrD (o : Option String) (d : String) : String :=
  match o with
  | some s => if s.data.isEmpty then d else s
  | none => d

/-- JS `s.substring(0, n)`. -/
def jsSubstrTo (n : Nat) (s : String) : String := ⟨s.data.take n⟩

example : jsTrim "  a b  " = "a b" := by decide
example : containsCI "Read MORE here" "read more" = true := by decide
example : stripTagsL "<p>hi</p>x".data = " hi x".data := by decide
example : stripTagsL "a<b".data = "a<b".data := by decide
example : jsSplitWsLenL " a b ".data = 4 := by decide
example : jsSplitWsLenL "a b".data = 2 := by decide
example : sentencesL "Hi there. Go! tail".data = ["Hi there.".data, " Go!".data] := by decide
example : sentencesL "..a.".data = ["a.".data] := by decide
example : capMatchCount "The Big cat xY Ab".data = 3 := by decide
example : jsLastIdx "a.b.c".data '.' = 3 := by decide
example : countOccurL "<p>".data "<p>a<p>b".data = 2 := by decide
example : removeBracketsL "a[xx]b[c".data = "ab[c".data := by decide
example : collapseRunsWith jsIsWs '-' "a  b c".data = "a-b-c".data := by decide
example : replaceAllL "&amp;".data "&".data "a&amp;b".data = "a&b".data := by decide
example : removeMatchesCI ["read more".data] "xRead Morey".data = "xy".data := by decide
example : digitRuns "12 a 3".data = 2 := by decide
example : joinWithSpaceL ["ab".data, "c".data] = "ab c".data := by decide

/-! ## Content quality gate — `src/services/ingestion/content-analyzer.ts` -/

/-- The snippet markers of `isFullContent`: regex
`/read more|continue reading|full story|view more/i`. -/
def readMoreMarkers : List String :=
  ["read more", "continue reading", "full story", "view more"]

/-- The second alternative of the `endsAbruptly` regex `/\.\.\.|â€¦$/`: the
literal three-character sequence `â€¦` (a mojibake ellipsis), anchored at the
end of the string.  The first alternative `\.\.\.` carries no anchor, so it
matches three dots anywhere. -/
def brokenEllipsis : String := "â€¦"

/-- `isFullContent(content, title)`: strips tags, then rejects on snippet
signals (`hasReadMore`, `endsAbruptly`), then requires word count ≥ 250 and
character count ≥ 1000.  The word count is `plainText.split(/\s+/).length`;
the `hasMultipleParagraphs` indicator of the source is computed but never
used in any decision and is omitted.  `title` is only logged. -/
def isFullContent (content title : String) : Bool :=
  if content.data.isEmpty then false
  else
    let plainText := trimL (stripTagsL content.data)
    let minWordCount := decide (250 ≤ jsSplitWsLenL plainText)
    let minCharCount := decide (1000 ≤ plainText.length)
    let hasReadMore := readMoreMarkers.any (fun m => containsCI content m)
    let endsAbruptly :=
      containsL "...".data plainText || endsWithL plainText brokenEllipsis.data
    if hasReadMore || endsAbruptly then false
    else if minWordCount && minCharCount then true
    else false

/-- Result record of `getContentStats`. -/
structure ContentStats where
  wordCount : Nat
  charCount : Nat
  paragraphs : Nat
  hasImages : Bool
deriving Repr, DecidableEq

/-- `getContentStats(content)`: word count is
`split(/\s+/).filter(w => w.length > 0).length` (= number of non-whitespace
runs), paragraphs counts `/<p>/gi` matches, `hasImages` tests `/<img/i`. -/
def getContentStats (content : String) : ContentStats :=
  let plainText := trimL (stripTagsL content.data)
  { wordCount := nonWsRuns plainText
    charCount := plainText.length
    paragraphs := countOccurL "<p>".data (lowerL content.data)
    hasImages := containsCI content "<img" }

/-- `needsScraping(content, sourceType, title)`. -/
def needsScraping (content sourceType title : String) : Bool :=
  if sourceType = "rss-scrape" then true
  else if sourceType = "rss-full" then
    if !isFullContent content title then true else false
  else !isFullContent content title

/-! ## Deduplicator — `src/services/ingestion/deduplicator.ts` -/

/-- A valid URL scheme, `[a-zA-Z][a-zA-Z0-9+.-]*`. -/
def schemeOkL : List Char → Bool
  | [] => false
  | c :: rest =>
    c.isAlpha && rest.all (fun d => d.isAlphanum || d == '+' || d == '.' || d == '-')

/-- Split a string at the first occurrence of `://`. -/
def breakAtSep : List Char → Option (List Char × List Char)
  | [] => none
  | c :: rest =>
    if startsWithL (c :: rest) "://".data then some ([], rest.drop 2)
    else
      match breakAtSep rest with
      | some (a, b) => some (c :: a, b)
      | none => none

/-- Parser for the `scheme://host/path?query#fragment` shape handled by the
model: scheme, non-empty host (up to the first `/`, `?` or `#`), pathname (up
to the first `?` or `#`, defaulting to `/` as `new URL` does).  URLs outside
this shape (no scheme separator, empty host) are parse failures, as they are
for the WHATWG parser on the inputs of interest; ports, userinfo,
percent-encoding and dot-segment normalization are outside the model. -/
def parseUrlParts (s : String) : Option (List Char × List Char × List Char) :=
  match breakAtSep s.data with
  | none => none
  | some (scheme, rest) =>
    if schemeOkL scheme then
      let host := rest.takeWhile (fun c => !(c == '/') && !(c == '?') && !(c == '#'))
      let tail := rest.dropWhile (fun c => !(c == '/') && !(c == '?') && !(c == '#'))
      if host.isEmpty then none
      else
        let path := tail.takeWhile (fun c => !(c == '?') && !(c == '#'))
        some (scheme, host, if path.isEmpty then ['/'] else path)
    else none

/-- `normalizeUrl(url)`: on parse success
`(protocol + "//" + host + pathname).toLowerCase()` (query and fragment
stripped); on failure the whole string lower-cased (the `catch` branch). -/
def normalizeUrl (url : String) : String :=
  match parseUrlParts url with
  | some (scheme, host, path) => ⟨lowerL (scheme ++ "://".data ++ host ++ path)⟩
  | none => jsLower url

/-- `generateContentHash(content)` hashes `content.toLowerCase().trim()` with
md5; the hash is modelled as the hashed string itself (an injective
fingerprint — collisions are outside the model).  The SQL side
`MD5(LOWER(TRIM(COALESCE(content_original, ''))))` applies the same key to
the stored content. -/
def contentHashKey (content : String) : String := ⟨lowerL (trimL content.data)⟩

/-- The columns of the `articles` insert of the process worker that the
claims inspect. -/
structure Article where
  title : String
  slug : String
  summary : String
  content_original : String
  content_rewritten : String
  source_url : String
  source_name : String
  author_name : String
  category_id : Option String
  featured_image : Option String
  status : String
  is_trending : Bool
  is_featured : Bool
deriving Repr, DecidableEq

/-- Rows of `SELECT id FROM articles WHERE source_url = $1` are non-empty
(the argument is the already-normalized probe URL). -/
def urlQueryHit (store : List Article) (normalizedUrl : String) : Bool :=
  store.any (fun a => a.source_url == normalizedUrl)

/-- Rows of `SELECT id FROM articles WHERE LOWER(title) = LOWER($1)` are
non-empty. -/
def titleQueryHit (store : List Article) (title : String) : Bool :=
  store.any (fun a => jsLower a.title == jsLower title)

/-- Rows of the content-hash query are non-empty. -/
def hashQueryHit (store : List Article) (content : String) : Bool :=
  store.any (fun a => contentHashKey a.content_original == contentHashKey content)

/-- The body of `isDuplicate` with the outcome of each of the three awaited
queries supplied explicitly: `Except.error` means the query threw.  The
queries run in order, each short-circuits on a hit, and the surrounding
`try/catch` turns any thrown error into `false`. -/
def isDuplicateRun (urlQ titleQ hashQ : Except Unit Bool) : Bool :=
  match urlQ with
  | .error _ => false
  | .ok true => true
  | .ok false =>
    match titleQ with
    | .error _ => false
    | .ok true => true
    | .ok false =>
      match hashQ with
      | .error _ => false
      | .ok b => b

/-- `isDuplicate(sourceUrl, title, content)` in the error-free case: the
three checks against the article store, any hit sufficing. -/
def isDuplicate (store : List Article) (sourceUrl title content : String) : Bool :=
  isDuplicateRun (.ok (urlQueryHit store (normalizeUrl sourceUrl)))
    (.ok (titleQueryHit store title)) (.ok (hashQueryHit store content))

example : normalizeUrl "https://Example.com/News?id=5#top" = "https://example.com/news" := by decide
example : normalizeUrl "https://example.com" = "https://example.com/" := by decide
example : normalizeUrl "not a url" = "not a url" := by decide

/-! ## Trending / featured scoring and slugs — `src/lib/redis.ts` -/

/-- Title signal words of `shouldBeTrending`:
`/breaking|urgent|just in|developing|live|update/i`. -/
def trendingTitleWords : List String :=
  ["breaking", "urgent", "just in", "developing", "live", "update"]

/-- Content signal words of `shouldBeTrending`:
`/breaking|urgent|alert|exclusive/i` over `content.substring(0, 200)`. -/
def trendingContentWords : List String :=
  ["breaking", "urgent", "alert", "exclusive"]

/-- Breaking-news keyword lexicon of `shouldBeTrending`. -/
def trendingKeywordLexicon : List String :=
  ["breaking", "urgent", "crisis", "emergency", "alert"]

/-- Six hours in milliseconds. -/
def sixHoursMs : Int := 6 * 60 * 60 * 1000

/-- The `isRecent` test of `shouldBeTrending`: published within the last six
hours, or no publish date available. -/
def trendRecent (now : Int) (pubDate : Option Int) : Bool :=
  match pubDate with
  | some t => decide (now - t < sixHoursMs)
  | none => true

/-- The three `trendingIndicators` of `shouldBeTrending`. -/
def trendIndicators (title content : String) (keywords : List String) : List Bool :=
  [ trendingTitleWords.any (fun w => containsCI title w),
    trendingContentWords.any (fun w => containsCI (jsSubstrTo 200 content) w),
    keywords.any (fun k => trendingKeywordLexicon.contains (jsLower k)) ]

/-- `shouldBeTrending(title, content, keywords, pubDate)`: recent and at
least one indicator (`filter(Boolean).length >= 1`). -/
def shouldBeTrending (now : Int) (title content : String) (keywords : List String)
    (pubDate : Option Int) : Bool :=
  trendRecent now pubDate &&
    decide (1 ≤ (trendIndicators title content keywords).count true)

/-- The clickbait regex of `shouldBeFeatured`:
`/\?|!|you won't believe|shocking|incredible/i`. -/
def clickbaitSignal (title : String) : Bool :=
  title.data.contains '?' || title.data.contains '!' ||
    containsCI title "you won\x27t believe" || containsCI title "shocking" ||
    containsCI title "incredible"

/-- The five `qualityChecks` of `shouldBeFeatured`, in source order:
`hasImage`, `hasGoodLength`, `hasStructure`, `hasGoodTitle`, `notClickbait`. -/
def featuredChecks (title : String) (contentStats : ContentStats)
    (imageUrl : Option String) : List Bool :=
  [ jsTruthy imageUrl,
    decide (500 ≤ contentStats.wordCount),
    decide (3 ≤ contentStats.paragraphs),
    decide (30 ≤ title.data.length ∧ title.data.length ≤ 100),
    !clickbaitSignal title ]

/-- `shouldBeFeatured(title, content, contentStats, imageUrl)`: at least 4 of
the 5 quality checks (the `content` argument is unused in the source). -/
def shouldBeFeatured (title : String) (contentStats : ContentStats)
    (imageUrl : Option String) : Bool :=
  decide (4 ≤ (featuredChecks title contentStats imageUrl).count true)

/-- The character filter of the slug expression `replace(/[^\w\s-]/g, "")`. -/
def stripNonWordL (l : List Char) : List Char :=
  l.filter (fun c => isWordChar c || jsIsWs c || c == '-')

/-- The hyphenation core of the slug expression:
`title.toLowerCase().replace(/[^\w\s-]/g, "").replace(/\s+/g, "-")
.replace(/[-]+/g, "-")`. -/
def hyphenForm (title : String) : List Char :=
  collapseRunsWith (fun c => c == '-') '-'
    (collapseRunsWith jsIsWs '-' (stripNonWordL (lowerL title.data)))

/-- The slug expression of the process worker: the hyphenation core followed
by `.trim().substring(0, 100)`.  Note that `trim()` strips whitespace only,
after all whitespace has already been replaced by hyphens. -/
def deriveSlug (title : String) : String :=
  jsSubstrTo 100 ⟨trimL (hyphenForm title)⟩

/-- Drop hyphens from both ends of a list. -/
def trimHyphenEnds (l : List Char) : List Char :=
  ((l.dropWhile (fun c => c == '-')).reverse.dropWhile (fun c => c == '-')).reverse

/-- Modelled from the spec for the refinement comparison of the slug claim:
lowercase, strip non-word characters, replace whitespace runs with hyphens,
collapse repeated hyphens, trim hyphens from the ends, cap the length. -/
def slugSpecModel (title : String) : String :=
  jsSubstrTo 100 ⟨trimHyphenEnds (hyphenForm title)⟩

/-! ## Summarizer — `src/services/ai/summarizer.ts`

`summarizeText` computes `targetLength = Math.max(Math.floor(len * 0.25),
minLength || 200)`; the claims use the no-`minLength` form.  For the input
sizes in scope `len * 0.25` is exact in binary floating point, so the floor
equals `len / 4`.  The outcome of `generateAISummary` (an axios call,
already passed through `cleanSummary`) is an oracle: `none` covers a missing
API key and the caught failure modes; when the AI result is too short
(`< targetLength * 0.8`) the code falls back to the extractive summary over
the prepared text, which is the path modelled by `summarizeFallback`.  (The
outermost `catch` would run the extractive summary over the raw text
instead; no claim depends on that path.) -/

/-- `targetLength` for a call without `minLength`. -/
def targetLengthOf (text : String) : Nat := max (text.data.length / 4) 200

/-- First noise pattern of `prepareTextForSummarization`:
`/Click here|Read more|Continue reading|Subscribe now|Sign up/gi`. -/
def summarizerNoise1 : List (List Char) :=
  ["click here".data, "read more".data, "continue reading".data,
    "subscribe now".data, "sign up".data]

/-- Third noise pattern of `prepareTextForSummarization`:
`/Advertisement|Sponsored/gi`. -/
def summarizerNoise2 : List (List Char) := ["advertisement".data, "sponsored".data]

/-- `prepareTextForSummarization(text)`: collapse whitespace, strip noise
phrases and `[...]` brackets, and for inputs over 4000 characters keep the
first and last 2000 characters joined by a space. -/
def prepareTextForSummarization (text : String) : String :=
  let c1 := trimL (collapseRunsWith jsIsWs ' ' text.data)
  let c2 := removeMatchesCI summarizerNoise1 c1
  let c3 := removeBracketsL c2
  let c4 := removeMatchesCI summarizerNoise2 c3
  let c5 :=
    if 4000 < c4.length then c4.take 2000 ++ ' ' :: c4.drop (c4.length - 2000)
    else c4
  ⟨trimL c5⟩

/-- The `importantWords` list of `generateEnhancedSummary`. -/
def importantWords : List String :=
  ["announce", "revealed", "discovered", "found", "reported",
    "confirmed", "stated", "according", "official", "breaking",
    "new", "first", "major", "significant", "important"]

/-- A scored sentence of `generateEnhancedSummary`; the stored sentence is
trimmed, the score is kept in half-points so that the JS float score
`numbers.length * 1.5` capped at `5` stays integral. -/
structure ScoredSentence where
  sentence : String
  score : Nat
  index : Nat
deriving Repr, DecidableEq

/-- The sentence score of `generateEnhancedSummary`, in half-points: position
(10, 8, 6 for the first three), 2 per important word, capitalized-word count
capped at 5, `min(numbers * 1.5, 5)`, 3 for 10–30 words, 3 for a quotation
(`/"[^"]*"/` or the apostrophe analogue, each equivalent to two occurrences
of the quote character). -/
def scoreSentenceHalf (index : Nat) (raw : List Char) : Nat :=
  let lowerS := lowerL raw
  let posScore := if index < 3 then 20 - 4 * index else 0
  let impScore := 4 * (importantWords.filter (fun w => containsL w.data lowerS)).length
  let capScore := 2 * min (capMatchCount raw) 5
  let numScore := min (3 * digitRuns raw) 10
  let wc := jsSplitWsLenL raw
  let lenScore := if 10 ≤ wc ∧ wc ≤ 30 then 6 else 0
  let quoteScore := if 2 ≤ raw.count '"' ∨ 2 ≤ raw.count '\x27' then 6 else 0
  posScore + impScore + capScore + numScore + lenScore + quoteScore

/-- Stable insertion for the descending score sort
(`sort((a, b) => b.score - a.score)`; JS sort is stable). -/
def insertScoreDesc (x : ScoredSentence) : List ScoredSentence → List ScoredSentence
  | [] => [x]
  | y :: ys => if x.score < y.score then y :: insertScoreDesc x ys else x :: y :: ys

/-- Stable descending sort by score. -/
def sortScoreDesc : List ScoredSentence → List ScoredSentence
  | [] => []
  | x :: xs => insertScoreDesc x (sortScoreDesc xs)

/-- Stable insertion for the ascending index sort
(`sort((a, b) => a.index - b.index)`). -/
def insertIdxAsc (x : ScoredSentence) : List ScoredSentence → List ScoredSentence
  | [] => [x]
  | y :: ys => if y.index < x.index then y :: insertIdxAsc x ys else x :: y :: ys

/-- Ascending sort by (distinct) original index. -/
def sortIdxAsc : List ScoredSentence → List ScoredSentence
  | [] => []
  | x :: xs => insertIdxAsc x (sortIdxAsc xs)

/-- The greedy selection loop of `generateEnhancedSummary`: stop before an
item once the accumulated (trimmed) length reaches the target, and stop
after the item that makes ten selected sentences. -/
def selectSentences (target : Nat) : List ScoredSentence → Nat → Nat → List ScoredSentence
  | [], _, _ => []
  | it :: rest, curLen, count =>
    if target ≤ curLen then []
    else if 10 ≤ count + 1 then [it]
    else it :: selectSentences target rest (curLen + it.sentence.data.length) (count + 1)

/-- The punctuation repair of `cleanSummary`: if the text does not end in
`.`, `!` or `?`, cut at the rightmost such character when its index is
positive, otherwise append a period. -/
def ensureTerminal (l : List Char) : List Char :=
  if endsTermL l then l
  else
    let lastP := max (jsLastIdx l '.') (max (jsLastIdx l '?') (jsLastIdx l '!'))
    if 0 < lastP then l.take (lastP.toNat + 1)
    else l ++ ['.']

/-- `cleaned.charAt(0).toUpperCase() + cleaned.slice(1)` (ASCII fragment). -/
def capitalizeFirst : List Char → List Char
  | [] => []
  | c :: rest => c.toUpper :: rest

/-- `cleanSummary(summary)`: trim, repair the final punctuation, collapse
whitespace, capitalize the first character. -/
def cleanSummary (summary : String) : String :=
  ⟨capitalizeFirst (trimL (collapseRunsWith jsIsWs ' ' (ensureTerminal (trimL summary.data))))⟩

/-- The sentence-selection part of `generateEnhancedSummary`, before
`cleanSummary`: split into sentences (`match(/[^.!?]+[.!?]+/g) || [text]`),
score, stable-sort by score, greedily select, restore original order, join
with spaces.  (The `sentences.length === 0` early return of the source is
unreachable: the `|| [text]` default makes the list non-empty.) -/
def selectedSummaryRaw (text : String) (targetLength : Nat) : String :=
  let sents := match sentencesL text.data with | [] => [text.data] | l => l
  let scored := sents.enum.map
    (fun p => ScoredSentence.mk ⟨trimL p.2⟩ (scoreSentenceHalf p.1 p.2) p.1)
  let ordered := sortIdxAsc (selectSentences targetLength (sortScoreDesc scored) 0 0)
  ⟨joinWithSpaceL (ordered.map (fun s => s.sentence.data))⟩

/-- `generateEnhancedSummary(text, targetLength)`. -/
def generateEnhancedSummary (text : String) (targetLength : Nat) : String :=
  cleanSummary (selectedSummaryRaw text targetLength)

/-- The extractive fallback taken by `summarizeText(text)` when the AI path
is unavailable: `generateEnhancedSummary(prepareTextForSummarization(text),
targetLength)` with the target computed from the raw input length. -/
def summarizeFallback (text : String) : String :=
  generateEnhancedSummary (prepareTextForSummarization text) (targetLengthOf text)

/-- `summarizeText(text)` with the AI result supplied as an oracle: an AI
summary of at least 80% of the target length is returned as is, anything
else falls back to the extractive summary. -/
def summarizeTextModel (ai : Option String) (text : String) : String :=
  match ai with
  | some s =>
    if 8 * targetLengthOf text ≤ 10 * s.data.length then s
    else summarizeFallback text
  | none => summarizeFallback text

example : cleanSummary "hello world" = "Hello world." := by decide
example : cleanSummary "ab. cde" = "Ab." := by decide
example : cleanSummary "" = "." := by decide
example : summarizeFallback "3 dead." = "3 dead." := by decide
example : targetLengthOf "3 dead." = 200 := by decide

/-! ## Fetch worker — `src/lib/redis.ts`, `fetch-articles` handler

The candidate records come from `parseRSSFeed` (or the one-element scraper
wrap); the optional fields model the JS fields used by the worker, with
media objects flattened to their `$.url` string.  The two
`article["media:content"]`/`article["media:thumbnail"]` branches of the
image extraction never fire for the mapped records and are absent.
`scrapeArticle` and `extractImageUrl` are network/DOM adapters and are
oracle parameters; `Option.none` for a scrape covers both a `null` result
and a thrown error (the worker catches the error and keeps the RSS
content). -/

/-- A candidate from the feed (or the scraper wrap). -/
structure RawCandidate where
  title : String
  link : String
  content : Option String
  contentSnippet : Option String
  author : Option String
  pubDate : Option Int
  enclosureUrl : Option String
  enclosureType : Option String
  mediaContentUrl : Option String
  mediaThumbnailUrl : Option String
deriving Repr, DecidableEq

/-- The result of a successful `scrapeArticle`; only `content` is consumed
by the fetch worker. -/
structure Scraped where
  content : String
deriving Repr, DecidableEq

/-- The external collaborators of the fetch loop. -/
structure FetchOracles where
  dedup : String → String → String → Bool
  scrape : String → Option Scraped
  extractImage : String → String → Option String

/-- The payload of `addProcessJob`. -/
structure ProcessJobPayload where
  sourceId : String
  sourceName : String
  title : String
  link : String
  content : String
  author : Option String
  pubDate : Option Int
  imageUrl : Option String
deriving Repr, DecidableEq

/-- The RSS image extraction chain of the fetch worker: enclosure (with an
`image`-prefixed type), then `mediaContent.$.url`, then
`mediaThumbnail.$.url`. -/
def rssImageOf (a : RawCandidate) : Option String :=
  if jsTruthy a.enclosureUrl &&
      (match a.enclosureType with
        | some t => startsWithL t.data "image".data
        | none => false) then
    a.enclosureUrl
  else if jsTruthy a.mediaContentUrl then a.mediaContentUrl
  else if jsTruthy a.mediaThumbnailUrl then a.mediaThumbnailUrl
  else none

/-- The secondary-scrape phase: when the analyzer recommends scraping and the
scrape yields over 500 characters, the scraped content replaces the RSS
content only if its word count beats the original by more than 50%
(`scrapedStats.wordCount > contentStats.wordCount * 1.5`, written over the
integers as `2 * scraped > 3 * original`), and a missing image is then
re-extracted from the scraped content. -/
def scrapePhase (O : FetchOracles) (srcType : String) (a : RawCandidate)
    (fullContent0 : String) (image0 : Option String) : String × Option String :=
  if needsScraping fullContent0 srcType a.title then
    match O.scrape a.link with
    | some sc =>
      if 500 < sc.content.data.length then
        if 3 * (getContentStats fullContent0).wordCount
            < 2 * (getContentStats sc.content).wordCount then
          (sc.content,
            if jsTruthy image0 then image0 else O.extractImage sc.content a.link)
        else (fullContent0, image0)
      else (fullContent0, image0)
    | none => (fullContent0, image0)
  else (fullContent0, image0)

/-- The two strict validations at the end of one loop iteration of the
fetch worker (`if (!imageUrl) ...; if (fullContent.length < 500) ...`) and
the queued payload on success. -/
def queueGate (srcId srcName : String) (a : RawCandidate) (content1 : String)
    (image2 : Option String) : Option ProcessJobPayload :=
  if !jsTruthy image2 then none
  else if content1.length < 500 then none
  else
    some { sourceId := srcId, sourceName := srcName, title := a.title,
           link := a.link, content := content1, author := a.author,
           pubDate := a.pubDate, imageUrl := image2 }

/-- One iteration of the candidate loop of the fetch worker: `none` when the
candidate is skipped (no link, duplicate, no image, content under 500
characters), `some payload` when it is queued.  The if-expression feeding
`queueGate` is the content-level image re-extraction
(`if (!imageUrl && fullContent) imageUrl = extractImageUrl(...)`). -/
def evalCandidate (O : FetchOracles) (srcType srcId srcName : String)
    (a : RawCandidate) : Option ProcessJobPayload :=
  if a.link.data.isEmpty then none
  else if O.dedup a.link a.title (jsOrD a.content "") then none
  else
    let ci := scrapePhase O srcType a (jsOrD a.content (jsOrD a.contentSnippet ""))
      (rssImageOf a)
    queueGate srcId srcName a ci.1
      (if !jsTruthy ci.2 && !ci.1.data.isEmpty then O.extractImage ci.1 a.link
        else ci.2)

/-- The candidate loop of the fetch worker: candidates in feed order; the
`queued >= 1` guard and the trailing `break` stop the loop at the first
queued candidate, so the loop is the first hit of `evalCandidate`. -/
def fetchSelect (O : FetchOracles) (srcType srcId srcName : String) :
    List RawCandidate → List ProcessJobPayload
  | [] => []
  | a :: rest =>
    match evalCandidate O srcType srcId srcName a with
    | some p => [p]
    | none => fetchSelect O srcType srcId srcName rest

/-! ## Process worker — `src/lib/redis.ts`, `process-articles` handler

`cleanHTML` wraps DOMPurify (an external sanitizer, oracle `sanitize`; its
`catch` returns the input unchanged, which the oracle can also express).
`extractKeywords`/`extractEntities` live in a module not present in the
sources and their outputs are not inspected by any claim; they are oracle
data.  `rewriteArticleWithHTML` and `classifyArticle` catch all their errors
internally (returning a fallback article and `null` respectively) and are
total oracles.  The `sourceCheck` query and the final insert may throw,
which fails the job. -/

/-- `extractPlainText(html)`: strip tags, decode the six listed entities,
normalize whitespace. -/
def extractPlainText (html : String) : String :=
  let t1 := stripTagsL html.data
  let t2 := replaceAllL "&nbsp;".data " ".data t1
  let t3 := replaceAllL "&amp;".data "&".data t2
  let t4 := replaceAllL "&lt;".data "<".data t3
  let t5 := replaceAllL "&gt;".data ">".data t4
  let t6 := replaceAllL "&quot;".data "\"".data t5
  let t7 := replaceAllL "&#39;".data "\x27".data t6
  ⟨trimL (collapseRunsWith jsIsWs ' ' t7)⟩

/-- The external collaborators of one process-worker run. -/
structure ProcOracles where
  sourceCheck : Except Unit Bool
  sanitize : String → String
  aiSummary : Option String
  keywords : List String
  entities : String
  rewritten : String
  classify : Option String
  fallbackCategory : Option String
  insert : Except Unit String

/-- The row inserted by the process worker on the success path: all computed
fields of the `INSERT INTO articles` statement.  In particular `source_url`
is the raw candidate link `p.link`, not a normalized URL. -/
def insertedArticle (O : ProcOracles) (now : Int) (p : ProcessJobPayload) : Article :=
  let cleanedContent := O.sanitize p.content
  let plainText := extractPlainText cleanedContent
  let contentStats := getContentStats cleanedContent
  { title := p.title
    slug := deriveSlug p.title
    summary := summarizeTextModel O.aiSummary plainText
    content_original := cleanedContent
    content_rewritten := O.rewritten
    source_url := p.link
    source_name := p.sourceName
    author_name := jsOrD p.author (jsOrD (some p.sourceName) "PulsePress Editorial")
    category_id :=
      match O.classify with
      | some c => some c
      | none => O.fallbackCategory
    featured_image := p.imageUrl
    status := "published"
    is_trending := shouldBeTrending now p.title plainText O.keywords p.pubDate
    is_featured := shouldBeFeatured p.title contentStats p.imageUrl }

/-- One run of the process worker over the article store: returns the store
after the run together with the job outcome (`Except.error` = the handler
threw and the job failed).  Mirrors the handler order: source check; clean
and re-validate content length and image presence; summarize, enrich and
score (all total, folded into `insertedArticle`); insert (the only store
write, a single atomic statement, which may itself fail). -/
def processRun (O : ProcOracles) (now : Int) (store : List Article)
    (p : ProcessJobPayload) : List Article × Except Unit String :=
  match O.sourceCheck with
  | .error _ => (store, .error ())
  | .ok srcExists =>
    if !srcExists then (store, .error ())
    else if (extractPlainText (O.sanitize p.content)).length < 500 then
      (store, .error ())
    else if !jsTruthy p.imageUrl then (store, .error ())
    else
      match O.insert with
      | .error _ => (store, .error ())
      | .ok newId => (store ++ [insertedArticle O now p], .ok newId)

example : deriveSlug "Hello, World! News" = "hello-world-news" := by decide
example : deriveSlug " hello " = "-hello-" := by decide
example : shouldBeTrending 0 "BREAKING news" "" [] none = true := by decide
example :
    shouldBeFeatured "A headline that is long enough to look serious here"
      ⟨600, 4000, 4, true⟩ (some "http://x/i.jpg") = true := by decide

/-! ## Claim-level predicates and concrete fixtures -/

/-- The snippet signal as worded by the claim on `isFullContent`: a
read-more/continue-reading marker, or plain text ending with an ellipsis
(three dots or the ellipsis character). -/
def c2SpecSnippetSignal (content : String) : Bool :=
  containsCI content "read more" || containsCI content "continue reading" ||
    endsWithL (trimL (stripTagsL content.data)) "...".data ||
    endsWithL (trimL (stripTagsL content.data)) "…".data

/-- The claim on `isFullContent`, stated at one input: a snippet signal
forces `false`; otherwise the result is `true` exactly when the plain-text
word count is at least 250 and the character count at least 1000. -/
def C2ClaimAt (content title : String) : Prop :=
  (c2SpecSnippetSignal content = true → isFullContent content title = false) ∧
  (c2SpecSnippetSignal content = false →
    (isFullContent content title = true ↔
      250 ≤ jsSplitWsLenL (trimL (stripTagsL content.data)) ∧
        1000 ≤ (trimL (stripTagsL content.data)).length))

/-- Counterexample content for the `isFullContent` claim: three dots in the
middle of long, marker-free content that meets both count thresholds. -/
def c2Content : String :=
  "Profits rose ... sharply this quarter. " ++
    String.join (List.replicate 130 "abc defg ")

/-- The claim on the extractive fallback summary, stated at one input:
length at least `0.8 * target` with `target = max(len / 4, 200)`, terminal
punctuation at the end, and a capital letter at the start. -/
def C5ClaimAt (text : String) : Prop :=
  8 * targetLengthOf text ≤ 10 * (summarizeFallback text).data.length ∧
  endsTermL (summarizeFallback text).data = true ∧
  isUpperAZ ((summarizeFallback text).data.headD ' ') = true

/-- 600 characters of marker-free body text shared by the fixtures. -/
def fxContent : String :=
  String.join (List.replicate 15 "Lorem ipsum dolor sit amet consectetur. ")

/-- Fetch oracles for the fixtures: nothing is a duplicate, scraping yields
nothing, no image is extractable from content. -/
def fxOracles : FetchOracles :=
  { dedup := fun _ _ _ => false
    scrape := fun _ => none
    extractImage := fun _ _ => none }

/-- A candidate with a feed image and 600 characters of content. -/
def fxCandidate : RawCandidate :=
  { title := "Fetched Headline About Events"
    link := "https://example.com/news?id=5"
    content := some fxContent
    contentSnippet := none
    author := none
    pubDate := none
    enclosureUrl := some "https://img.example.com/a.jpg"
    enclosureType := some "image/jpeg"
    mediaContentUrl := none
    mediaThumbnailUrl := none }

/-- A candidate that fails the gates (no link). -/
def fxCandidateNoLink : RawCandidate := { fxCandidate with link := "" }

/-- The payload the fetch worker queues for `fxCandidate`. -/
def fxPayload : ProcessJobPayload :=
  { sourceId := "s1"
    sourceName := "Source Name"
    title := "Fetched Headline About Events"
    link := "https://example.com/news?id=5"
    content := fxContent
    author := none
    pubDate := none
    imageUrl := some "https://img.example.com/a.jpg" }

/-- Process oracles for the fixtures: the source exists, the sanitizer is the
identity, the AI summary is a 200-character result, enrichment is trivial,
the insert succeeds. -/
def fxProcOracles : ProcOracles :=
  { sourceCheck := .ok true
    sanitize := fun s => s
    aiSummary := some (String.join (List.replicate 20 "Summary ok"))
    keywords := []
    entities := ""
    rewritten := "<p>rewritten</p>"
    classify := none
    fallbackCategory := none
    insert := .ok "id-1" }

/-- A process payload whose candidate link carries a query string (stored
verbatim as `source_url` on insert). -/
def c1PayloadQ : ProcessJobPayload :=
  { sourceId := "s1"
    sourceName := "Source Name"
    title := "Fetched Headline About Events"
    link := "https://example.com/news?id=5"
    content := fxContent
    author := none
    pubDate := none
    imageUrl := some "https://img.example.com/a.jpg" }

/-- The same payload with an already-normalized link. -/
def c1PayloadN : ProcessJobPayload :=
  { c1PayloadQ with link := "https://example.com/news" }

/-- A process payload with content far below the 500-character floor. -/
def c9Payload : ProcessJobPayload := { c1PayloadQ with content := "too short" }

/-- A stored article for the deduplicator fixtures. -/
def dupArt : Article :=
  { title := "Stored Title"
    slug := "stored-title"
    summary := ""
    content_original := "stored body text"
    content_rewritten := ""
    source_url := "https://example.com/a"
    source_name := ""
    author_name := ""
    category_id := none
    featured_image := none
    status := "published"
    is_trending := false
    is_featured := false }

/-- A one-article store. -/
def dupStore : List Article := [dupArt]

/-! ## Helper lemmas -/

theorem queueGate_some_valid (srcId srcName : String) (a : RawCandidate)
    (content1 : String) (image2 : Option String) (p : ProcessJobPayload)
    (h : queueGate srcId srcName a content1 image2 = some p) :
    jsTruthy p.imageUrl = true ∧ 500 ≤ p.content.length := by
  unfold queueGate at h
  split at h
  · exact Option.noConfusion h
  · split at h
    · exact Option.noConfusion h
    · rename_i himg hlen
      injection h with h'
      subst h'
      refine ⟨by simpa using himg, Nat.le_of_not_lt hlen⟩

theorem evalCandidate_some_valid (O : FetchOracles) (srcType srcId srcName : String)
    (a : RawCandidate) (p : ProcessJobPayload)
    (h : evalCandidate O srcType srcId srcName a = some p) :
    jsTruthy p.imageUrl = true ∧ 500 ≤ p.content.length := by
  simp only [evalCandidate] at h
  split at h
  · exact Option.noConfusion h
  · split at h
    · exact Option.noConfusion h
    · exact queueGate_some_valid _ _ _ _ _ _ h

theorem processRun_cases (O : ProcOracles) (now : Int) (store : List Article)
    (p : ProcessJobPayload) :
    processRun O now store p = (store, Except.error ()) ∨
    ∃ newId, O.insert = Except.ok newId ∧
      500 ≤ (extractPlainText (O.sanitize p.content)).length ∧
      jsTruthy p.imageUrl = true ∧
      processRun O now store p = (store ++ [insertedArticle O now p], Except.ok newId) := by
  unfold processRun
  split
  · exact Or.inl rfl
  next b =>
    split
    · exact Or.inl rfl
    next hb =>
      split
      · exact Or.inl rfl
      next hlen =>
        split
        · exact Or.inl rfl
        next himg =>
          split
          · exact Or.inl rfl
          next newId hins =>
            exact Or.inr ⟨newId, hins, Nat.le_of_not_lt hlen, by simpa using himg, rfl⟩

theorem collapseGo_mem {p : Char → Bool} {r : Char} :
    ∀ {l : List Char} {b : Bool} {c : Char},
      c ∈ collapseGo p r l b → c = r ∨ (c ∈ l ∧ p c = false) := by
  intro l
  induction l with
  | nil =>
    intro b c h
    simp [collapseGo] at h
  | cons d rest ih =>
    intro b c h
    unfold collapseGo at h
    by_cases hd : p d = true
    · rw [if_pos hd] at h
      cases b with
      | true =>
        rcases ih h with hr | ⟨hm, hp⟩
        · exact Or.inl hr
        · exact Or.inr ⟨List.mem_cons_of_mem d hm, hp⟩
      | false =>
        rcases List.mem_cons.mp h with hr | h2
        · exact Or.inl hr
        · rcases ih h2 with hr | ⟨hm, hp⟩
          · exact Or.inl hr
          · exact Or.inr ⟨List.mem_cons_of_mem d hm, hp⟩
    · rw [if_neg hd] at h
      rcases List.mem_cons.mp h with hr | h2
      · refine Or.inr ⟨?_, ?_⟩
        · rw [hr]
          exact List.mem_cons_self d rest
        · rw [hr]
          simpa using hd
      · rcases ih h2 with hr | ⟨hm, hp⟩
        · exact Or.inl hr
        · exact Or.inr ⟨List.mem_cons_of_mem d hm, hp⟩

theorem trimL_of_all_not_ws {l : List Char} (h : ∀ c ∈ l, jsIsWs c = false) :
    trimL l = l := by
  unfold trimL trimLeftL trimRightL
  have h1 : l.dropWhile jsIsWs = l := by
    cases l with
    | nil => rfl
    | cons c rest =>
      rw [List.dropWhile_cons, if_neg]
      simp [h c (List.mem_cons_self c rest)]
  rw [h1]
  have h2 : l.reverse.dropWhile jsIsWs = l.reverse := by
    cases hr : l.reverse with
    | nil => rfl
    | cons c rest =>
      rw [List.dropWhile_cons, if_neg]
      have hc : c ∈ l := by
        rw [← List.mem_reverse, hr]
        exact List.mem_cons_self c rest
      simp [h c hc]
  rw [h2, List.reverse_reverse]

theorem trimHyphenEnds_eq_self {l : List Char} (h1 : l.headD 'a' ≠ '-')
    (h2 : l.getLastD 'a' ≠ '-') : trimHyphenEnds l = l := by
  unfold trimHyphenEnds
  have d1 : l.dropWhile (fun c => c == '-') = l := by
    cases l with
    | nil => rfl
    | cons c rest =>
      rw [List.dropWhile_cons, if_neg]
      rw [List.headD_cons] at h1
      simp [h1]
  rw [d1]
  have d2 : l.reverse.dropWhile (fun c => c == '-') = l.reverse := by
    cases hr : l.reverse with
    | nil => rfl
    | cons c rest =>
      rw [List.dropWhile_cons, if_neg]
      have hlast : l.getLastD 'a' = c := by
        rw [List.getLastD_eq_getLast?, ← List.head?_reverse, hr]
        rfl
      rw [hlast] at h2
      simp [h2]
  rw [d2, List.reverse_reverse]

theorem hyphenForm_no_ws (title : String) :
    ∀ c ∈ hyphenForm title, jsIsWs c = false := by
  intro c hc
  unfold hyphenForm collapseRunsWith at hc
  rcases collapseGo_mem hc with rfl | ⟨hc2, _⟩
  · decide
  · rcases collapseGo_mem hc2 with rfl | ⟨_, hpc⟩
    · decide
    · exact hpc

theorem char_ofNat_toNat {n : Nat} (h : n.isValidChar) : (Char.ofNat n).toNat = n := by
  unfold Char.ofNat
  rw [dif_pos h]
  rfl

theorem isLowerAZ_iff {c : Char} : isLowerAZ c = true ↔ 97 ≤ c.toNat ∧ c.toNat ≤ 122 := by
  unfold isLowerAZ
  rw [Bool.and_eq_true, decide_eq_true_iff, decide_eq_true_iff]
  simp only [Char.le_def, UInt32.le_def, BitVec.le_def]
  exact Iff.rfl

theorem toUpper_not_lower (c : Char) : isLowerAZ c.toUpper = false := by
  simp only [Char.toUpper]
  by_cases h : c.toNat ≥ 97 ∧ c.toNat ≤ 122
  · rw [if_pos h, Bool.eq_false_iff]
    intro hl
    rw [isLowerAZ_iff, char_ofNat_toNat (Or.inl (by omega))] at hl
    omega
  · rw [if_neg h, Bool.eq_false_iff]
    intro hl
    rw [isLowerAZ_iff] at hl
    exact h ⟨hl.1, hl.2⟩

theorem isTerm_cases {c : Char} (h : isTerm c = true) : c = '.' ∨ c = '!' ∨ c = '?' := by
  simpa [isTerm, or_assoc] using h

theorem isTerm_not_ws {c : Char} (h : isTerm c = true) : jsIsWs c = false := by
  rcases isTerm_cases h with rfl | rfl | rfl <;> decide

theorem isTerm_toUpper {c : Char} (h : isTerm c = true) : c.toUpper = c := by
  rcases isTerm_cases h with rfl | rfl | rfl <;> decide

theorem lastIdxOfL_getElem {c : Char} :
    ∀ {l : List Char} {i : Nat}, lastIdxOfL c l = some i → l[i]? = some c := by
  intro l
  induction l with
  | nil =>
    intro i h
    simp [lastIdxOfL] at h
  | cons d rest ih =>
    intro i h
    unfold lastIdxOfL at h
    cases hr : lastIdxOfL c rest with
    | some j =>
      rw [hr] at h
      injection h with h'
      subst h'
      rw [List.getElem?_cons_succ]
      exact ih hr
    | none =>
      rw [hr] at h
      have h' : (if d = c then some 0 else none) = some i := h
      by_cases hd : d = c
      · rw [if_pos hd] at h'
        injection h' with h''
        subst h''
        simp [hd]
      · rw [if_neg hd] at h'
        exact Option.noConfusion h'

theorem ne_nil_of_getLast? {m : List Char} {c : Char} (h : m.getLast? = some c) :
    m ≠ [] := by
  intro he
  subst he
  simp at h

theorem getLast?_cons_ne_nil {x : Char} {m : List Char} (hm : m ≠ []) :
    (x :: m).getLast? = m.getLast? := by
  rcases List.exists_cons_of_ne_nil hm with ⟨y, ys, rfl⟩
  exact List.getLast?_cons_cons

theorem ensureTerminal_spec (l : List Char) :
    ∃ c, (ensureTerminal l).getLast? = some c ∧ isTerm c = true := by
  unfold ensureTerminal
  by_cases hE : endsTermL l = true
  · rw [if_pos hE]
    unfold endsTermL at hE
    cases hg : l.getLast? with
    | none =>
      rw [hg] at hE
      simp at hE
    | some c =>
      rw [hg] at hE
      exact ⟨c, rfl, hE⟩
  · rw [if_neg hE]
    by_cases hm : 0 < max (jsLastIdx l '.') (max (jsLastIdx l '?') (jsLastIdx l '!'))
    · rw [if_pos hm]
      have hch : ∃ ch, isTerm ch = true ∧
          jsLastIdx l ch =
            max (jsLastIdx l '.') (max (jsLastIdx l '?') (jsLastIdx l '!')) := by
        rcases max_choice (jsLastIdx l '.')
            (max (jsLastIdx l '?') (jsLastIdx l '!')) with h1 | h1
        · exact ⟨'.', by decide, h1.symm⟩
        · rcases max_choice (jsLastIdx l '?') (jsLastIdx l '!') with h2 | h2
          · exact ⟨'?', by decide, by rw [h1, h2]⟩
          · exact ⟨'!', by decide, by rw [h1, h2]⟩
      rcases hch with ⟨ch, hterm, hidx⟩
      rw [← hidx] at hm ⊢
      unfold jsLastIdx at hm ⊢
      cases hli : lastIdxOfL ch l with
      | none =>
        rw [hli] at hm
        exact absurd (show (0 : Int) < -1 from hm) (by norm_num)
      | some i =>
        have hi : l[i]? = some ch := lastIdxOfL_getElem hli
        have hlt : i < l.length := by
          by_contra hge
          rw [List.getElem?_eq_none (Nat.le_of_not_lt hge)] at hi
          exact Option.noConfusion hi
        show ∃ c, (List.take (((i : Int)).toNat + 1) l).getLast? = some c ∧
          isTerm c = true
        refine ⟨ch, ?_, hterm⟩
        have htoNat : ((i : Int)).toNat = i := Int.toNat_natCast i
        rw [htoNat, List.getLast?_eq_getElem?, List.length_take,
          Nat.min_eq_left (Nat.succ_le_of_lt hlt), Nat.succ_sub_one,
          List.getElem?_take, if_pos (Nat.lt_succ_self i)]
        exact hi
    · rw [if_neg hm]
      exact ⟨'.', List.getLast?_concat l, by decide⟩

theorem dropWhile_getLast? {p : Char → Bool} {c : Char} (hc : p c = false) :
    ∀ {l : List Char}, l.getLast? = some c → (l.dropWhile p).getLast? = some c := by
  intro l
  induction l with
  | nil =>
    intro h
    simp at h
  | cons d rest ih =>
    intro h
    cases rest with
    | nil =>
      have hd : d = c := by simpa using h
      subst hd
      rw [List.dropWhile_cons, if_neg (by simp [hc])]
      simp
    | cons e rest2 =>
      rw [List.getLast?_cons_cons] at h
      rw [List.dropWhile_cons]
      by_cases hd : p d = true
      · rw [if_pos hd]
        exact ih h
      · rw [if_neg hd, List.getLast?_cons_cons]
        exact h

theorem collapseGo_getLast? {p : Char → Bool} {r : Char} {c : Char} (hc : p c = false) :
    ∀ {l : List Char} {b : Bool}, l.getLast? = some c →
      (collapseGo p r l b).getLast? = some c := by
  intro l
  induction l with
  | nil =>
    intro b h
    simp at h
  | cons d rest ih =>
    intro b h
    cases rest with
    | nil =>
      have hd : d = c := by simpa using h
      subst hd
      unfold collapseGo
      rw [if_neg (by simp [hc])]
      simp [collapseGo]
    | cons e rest2 =>
      rw [List.getLast?_cons_cons] at h
      have hrec : ∀ b2 : Bool, (collapseGo p r (e :: rest2) b2).getLast? = some c :=
        fun b2 => ih h
      have hne : ∀ b2 : Bool, collapseGo p r (e :: rest2) b2 ≠ [] :=
        fun b2 => ne_nil_of_getLast? (hrec b2)
      unfold collapseGo
      by_cases hd : p d = true
      · rw [if_pos hd]
        cases b with
        | true =>
          simpa using hrec true
        | false =>
          rw [if_neg (by simp)]
          rw [getLast?_cons_ne_nil (hne true)]
          exact hrec true
      · rw [if_neg hd]
        rw [getLast?_cons_ne_nil (hne false)]
        exact hrec false

theorem trimRightL_eq_self {l : List Char} {c : Char} (hc : jsIsWs c = false)
    (h : l.getLast? = some c) : trimRightL l = l := by
  unfold trimRightL
  rw [← List.head?_reverse] at h
  cases hr : l.reverse with
  | nil =>
    rw [hr] at h
    simp at h
  | cons d rest =>
    rw [hr] at h
    have hd : d = c := by simpa using h
    subst hd
    rw [List.dropWhile_cons, if_neg (by simp [hc]), ← hr, List.reverse_reverse]

theorem trimL_getLast? {c : Char} (hc : jsIsWs c = false) {l : List Char}
    (h : l.getLast? = some c) : (trimL l).getLast? = some c ∧ trimL l ≠ [] := by
  unfold trimL
  have h1 : (trimLeftL l).getLast? = some c := by
    unfold trimLeftL
    exact dropWhile_getLast? hc h
  rw [trimRightL_eq_self hc h1]
  exact ⟨h1, ne_nil_of_getLast? h1⟩

theorem cleanSummary_props (s : String) :
    (cleanSummary s).data ≠ [] ∧ endsTermL (cleanSummary s).data = true ∧
    isLowerAZ ((cleanSummary s).data.headD 'A') = false := by
  unfold cleanSummary
  obtain ⟨c, hlast, hterm⟩ := ensureTerminal_spec (trimL s.data)
  have hnws := isTerm_not_ws hterm
  have h2 : (collapseRunsWith jsIsWs ' ' (ensureTerminal (trimL s.data))).getLast? =
      some c := by
    unfold collapseRunsWith
    exact collapseGo_getLast? hnws hlast
  obtain ⟨h3, h3ne⟩ := trimL_getLast? hnws h2
  rcases List.exists_cons_of_ne_nil h3ne with ⟨m0, ms, hmm⟩
  rw [hmm] at h3 ⊢
  refine ⟨by simp [capitalizeFirst], ?_, by simp [capitalizeFirst, toUpper_not_lower]⟩
  cases ms with
  | nil =>
    have hm0 : m0 = c := by simpa using h3
    subst hm0
    simp [capitalizeFirst, endsTermL, isTerm_toUpper hterm, hterm]
  | cons m1 ms2 =>
    rw [List.getLast?_cons_cons] at h3
    simp [capitalizeFirst, endsTermL, List.getLast?_cons_cons, h3, hterm]

/-! ## Theorems for the claims -/

/-- C3: over every candidate list and all oracle behaviors, the fetch worker
enqueues at most one process job, and the loop stops at the first candidate
that passes all gates. -/
theorem fetch_queues_at_most_one :
    (∀ (O : FetchOracles) (srcType srcId srcName : String)
        (cs : List RawCandidate),
      (fetchSelect O srcType srcId srcName cs).length ≤ 1) ∧
    (∀ (O : FetchOracles) (srcType srcId srcName : String) (a : RawCandidate)
        (rest : List RawCandidate) (p : ProcessJobPayload),
      evalCandidate O srcType srcId srcName a = some p →
      fetchSelect O srcType srcId srcName (a :: rest) = [p]) := by
  constructor
  · intro O srcType srcId srcName cs
    induction cs with
    | nil => simp [fetchSelect]
    | cons a rest ih =>
      cases h : evalCandidate O srcType srcId srcName a with
      | some p => simp [fetchSelect, h]
      | none => simpa [fetchSelect, h] using ih
  · intro O srcType srcId srcName a rest p h
    simp [fetchSelect, h]

/-- Witness for C3 at concrete inputs: a passing first candidate yields
exactly its payload, with a second candidate never examined. -/
theorem fetch_queues_at_most_one_witness :
    fetchSelect fxOracles "rss" "s1" "Source Name" [fxCandidate, fxCandidateNoLink] =
      [fxPayload] :=
  fetch_queues_at_most_one.2 fxOracles "rss" "s1" "Source Name" fxCandidate
    [fxCandidateNoLink] fxPayload (by decide)

/-- C4: every payload the fetch worker enqueues has a truthy image URL and
at least 500 characters of content; a candidate that fails a gate is skipped
(the loop moves on, the job does not fail). -/
theorem fetch_queued_payload_validated :
    (∀ (O : FetchOracles) (srcType srcId srcName : String)
        (cs : List RawCandidate) (p : ProcessJobPayload),
      p ∈ fetchSelect O srcType srcId srcName cs →
      jsTruthy p.imageUrl = true ∧ 500 ≤ p.content.length) ∧
    (∀ (O : FetchOracles) (srcType srcId srcName : String) (a : RawCandidate)
        (rest : List RawCandidate),
      evalCandidate O srcType srcId srcName a = none →
      fetchSelect O srcType srcId srcName (a :: rest) =
        fetchSelect O srcType srcId srcName rest) := by
  constructor
  · intro O srcType srcId srcName cs p hp
    induction cs with
    | nil => simp [fetchSelect] at hp
    | cons a rest ih =>
      cases h : evalCandidate O srcType srcId srcName a with
      | some q =>
        rw [fetchSelect, h] at hp
        simp at hp
        subst hp
        exact evalCandidate_some_valid O srcType srcId srcName a p h
      | none =>
        rw [fetchSelect, h] at hp
        exact ih hp
  · intro O srcType srcId srcName a rest h
    simp [fetchSelect, h]

/-- Witness for C4 at concrete inputs. -/
theorem fetch_queued_payload_validated_witness :
    jsTruthy fxPayload.imageUrl = true ∧ 500 ≤ fxPayload.content.length :=
  fetch_queued_payload_validated.1 fxOracles "rss" "s1" "Source Name"
    [fxCandidate] fxPayload (by decide)

/-- C6: `shouldBeFeatured` is true exactly when at least 4 of the 5
checklist items hold; in particular an article with no image but all four
other checks still scores 4 and is featured. -/
theorem featured_requires_four_of_five :
    (∀ (title : String) (stats : ContentStats) (imageUrl : Option String),
      shouldBeFeatured title stats imageUrl = true ↔
        4 ≤ (featuredChecks title stats imageUrl).count true) ∧
    ((featuredChecks "Global markets rally as tech stocks surge today"
        ⟨520, 3100, 4, false⟩ none).count true = 4 ∧
      shouldBeFeatured "Global markets rally as tech stocks surge today"
        ⟨520, 3100, 4, false⟩ none = true) := by
  refine ⟨?_, by decide, by decide⟩
  intro title stats imageUrl
  simp [shouldBeFeatured]

/-- C7: `shouldBeTrending` is true exactly when the article is recent
(within six hours, or undated) and at least one breaking-news indicator
holds; an article published ten hours ago is never trending, and one
published one hour ago with BREAKING in the title is trending. -/
theorem trending_requires_recent_and_signal :
    (∀ (now : Int) (title content : String) (keywords : List String)
        (pubDate : Option Int),
      shouldBeTrending now title content keywords pubDate = true ↔
        (trendRecent now pubDate = true ∧
          1 ≤ (trendIndicators title content keywords).count true)) ∧
    (∀ (now : Int) (title content : String) (keywords : List String),
      shouldBeTrending now title content keywords
        (some (now - 10 * 60 * 60 * 1000)) = false) ∧
    (∀ now : Int,
      shouldBeTrending now "BREAKING: Explosion reported downtown"
        "details soon" [] (some (now - 60 * 60 * 1000)) = true) := by
  refine ⟨?_, ?_, ?_⟩
  · intro now title content keywords pubDate
    simp [shouldBeTrending]
  · intro now title content keywords
    simp only [shouldBeTrending, trendRecent]
    rw [sub_sub_cancel]
    norm_num [sixHoursMs]
  · intro now
    simp only [shouldBeTrending, trendRecent]
    rw [sub_sub_cancel]
    norm_num [sixHoursMs]
    decide

/-- C9: when the cleaned plain text is under 500 characters or the image URL
is falsy, the process job fails with the store untouched; more generally any
failing run leaves the article store unchanged. -/
theorem process_revalidation_aborts :
    (∀ (O : ProcOracles) (now : Int) (store : List Article)
        (p : ProcessJobPayload),
      ((extractPlainText (O.sanitize p.content)).length < 500 ∨
        jsTruthy p.imageUrl = false) →
      processRun O now store p = (store, .error ())) ∧
    (∀ (O : ProcOracles) (now : Int) (store : List Article)
        (p : ProcessJobPayload),
      (processRun O now store p).2 = .error () →
      (processRun O now store p).1 = store) := by
  constructor
  · intro O now store p h
    rcases processRun_cases O now store p with hE | ⟨newId, _, hlen, himg, _⟩
    · exact hE
    · exfalso
      rcases h with h1 | h2
      · omega
      · rw [himg] at h2
        exact Bool.noConfusion h2
  · intro O now store p h
    rcases processRun_cases O now store p with hE | ⟨newId, _, _, _, hOk⟩
    · rw [hE]
    · rw [hOk] at h
      exact Except.noConfusion h

/-- Witness for C9 at a concrete short-content payload. -/
theorem process_revalidation_aborts_witness :
    processRun fxProcOracles 0 [] c9Payload = ([], .error ()) :=
  process_revalidation_aborts.1 fxProcOracles 0 [] c9Payload (Or.inl (by decide))

/-- C10: a thrown storage query during any of the three executed dedup
checks is caught and yields `false` (fail-open); the error-free run agrees
with `isDuplicate`; and a store/argument pair that is a duplicate in the
error-free run is reported as not-a-duplicate when the first query throws. -/
theorem dedup_fails_open_on_query_error :
    (∀ q2 q3 : Except Unit Bool, isDuplicateRun (.error ()) q2 q3 = false) ∧
    (∀ q3 : Except Unit Bool, isDuplicateRun (.ok false) (.error ()) q3 = false) ∧
    (isDuplicateRun (.ok false) (.ok false) (.error ()) = false) ∧
    (∀ (store : List Article) (u t c : String),
      isDuplicate store u t c =
        isDuplicateRun (.ok (urlQueryHit store (normalizeUrl u)))
          (.ok (titleQueryHit store t)) (.ok (hashQueryHit store c))) ∧
    (isDuplicate dupStore "https://example.com/a" "Another Title" "other text" = true ∧
      isDuplicateRun (.error ())
        (.ok (titleQueryHit dupStore "Another Title"))
        (.ok (hashQueryHit dupStore "other text")) = false) :=
  ⟨fun _ _ => rfl, fun _ => rfl, rfl, fun _ _ _ _ => rfl, by decide, rfl⟩

/-- C1 counterexample: the process worker persists the candidate link
verbatim as `source_url`, while `isDuplicate` compares stored URLs against
the normalized probe.  Persisting a link that carries a query string and
probing with that very same URL (distinct title and content) therefore
reports `false`, where the claim demands `true`. -/
theorem dedup_roundtrip_counterexample :
    (processRun fxProcOracles 0 [] c1PayloadQ).2 = Except.ok "id-1" ∧
    isDuplicate (processRun fxProcOracles 0 [] c1PayloadQ).1 c1PayloadQ.link
      "A Completely Different Headline" "entirely different body text" = false := by
  constructor
  · decide
  · decide

/-- C1 amended: the round-trip holds once the stored link is itself in
normalized form: after a successful persist of payload `p` with
`normalizeUrl p.link = p.link`, probing with any URL that normalizes to the
stored link (the URL itself, any query-string or fragment variant) returns
`true` whatever title and content are supplied; and a probe whose
normalized URL, lower-cased title and content key all differ from every
stored row returns `false`. -/
theorem dedup_roundtrip_amended :
    (∀ (O : ProcOracles) (now : Int) (store : List Article)
        (p : ProcessJobPayload) (newId v t c : String),
      (processRun O now store p).2 = Except.ok newId →
      normalizeUrl p.link = p.link →
      normalizeUrl v = p.link →
      isDuplicate (processRun O now store p).1 v t c = true) ∧
    (∀ (store : List Article) (u t c : String),
      (∀ a ∈ store, a.source_url ≠ normalizeUrl u ∧
        jsLower a.title ≠ jsLower t ∧
        contentHashKey a.content_original ≠ contentHashKey c) →
      isDuplicate store u t c = false) := by
  constructor
  · intro O now store p newId v t c hok hnorm hvar
    rcases processRun_cases O now store p with hE | ⟨newId2, _, _, _, hOk⟩
    · rw [hE] at hok
      exact Except.noConfusion hok
    · rw [hOk]
      have hurl : urlQueryHit (store ++ [insertedArticle O now p])
          (normalizeUrl v) = true := by
        unfold urlQueryHit
        rw [List.any_append]
        have : (insertedArticle O now p).source_url = p.link := rfl
        simp [this, hvar]
      simp [isDuplicate, isDuplicateRun, hurl]
  · intro store u t c hall
    have h1 : urlQueryHit store (normalizeUrl u) = false := by
      rw [urlQueryHit, List.any_eq_false]
      intro a ha
      simpa using (hall a ha).1
    have h2 : titleQueryHit store t = false := by
      rw [titleQueryHit, List.any_eq_false]
      intro a ha
      simpa using (hall a ha).2.1
    have h3 : hashQueryHit store c = false := by
      rw [hashQueryHit, List.any_eq_false]
      intro a ha
      simpa using (hall a ha).2.2
    simp [isDuplicate, isDuplicateRun, h1, h2, h3]

/-- Witness for the amended C1 at concrete inputs: a normalized stored link,
probed through a query-string variant with fresh title and content, is
detected; a fully fresh probe is not. -/
theorem dedup_roundtrip_amended_witness :
    isDuplicate (processRun fxProcOracles 0 [] c1PayloadN).1
      "https://example.com/news?utm=1" "Another Title" "other content" = true ∧
    isDuplicate dupStore "https://example.com/b" "Another Title" "other content" = false :=
  ⟨dedup_roundtrip_amended.1 fxProcOracles 0 [] c1PayloadN "id-1"
      "https://example.com/news?utm=1" "Another Title" "other content"
      (by decide) (by decide) (by decide),
    dedup_roundtrip_amended.2 dupStore "https://example.com/b" "Another Title"
      "other content" (by decide)⟩

/-- C8 counterexample: the `.trim()` of the slug expression runs after all
whitespace has been replaced by hyphens, so it strips nothing: a title with
surrounding whitespace keeps hyphens at both ends, unlike the claimed
derivation that trims them.  The persisted row carries exactly that slug. -/
theorem slug_trim_counterexample :
    deriveSlug " hello " = "-hello-" ∧ slugSpecModel " hello " = "hello" ∧
    deriveSlug " hello " ≠ slugSpecModel " hello " ∧
    (insertedArticle fxProcOracles 0 { c1PayloadQ with title := " hello " }).slug =
      "-hello-" := by
  refine ⟨by decide, by decide, by decide, ?_⟩
  show deriveSlug " hello " = "-hello-"
  decide

/-- C8 amended: the persisted slug is `deriveSlug` of the title —
lower-casing, stripping non-word characters, replacing whitespace runs with
hyphens and collapsing repeated hyphens, then capping at 100 characters
(deterministic, a pure function of the title); the trim step strips only
whitespace, of which none remains, so hyphens at the ends are preserved
rather than trimmed, and whenever the hyphenated form has no hyphen at
either end the slug agrees with the spec's hyphen-trimming derivation. -/
theorem slug_derivation_amended :
    (∀ (O : ProcOracles) (now : Int) (p : ProcessJobPayload),
      (insertedArticle O now p).slug = deriveSlug p.title) ∧
    (∀ title : String,
      (hyphenForm title).headD 'a' ≠ '-' →
      (hyphenForm title).getLastD 'a' ≠ '-' →
      deriveSlug title = slugSpecModel title) := by
  constructor
  · intro O now p
    rfl
  · intro title h1 h2
    unfold deriveSlug slugSpecModel
    rw [trimHyphenEnds_eq_self h1 h2, trimL_of_all_not_ws (hyphenForm_no_ws title)]

/-- Witness for the amended C8 at a concrete title with no edge hyphens. -/
theorem slug_derivation_amended_witness :
    deriveSlug "Breaking News Update" = slugSpecModel "Breaking News Update" :=
  slug_derivation_amended.2 "Breaking News Update" (by decide) (by decide)

/-- C2 counterexample: the `endsAbruptly` regex `/\.\.\.|â€¦$/` anchors only
its second alternative, so three dots in the middle of the text already
force `false`.  `c2Content` has no marker, does not end in an ellipsis, and
meets both count thresholds, yet `isFullContent` returns `false` where the
claim demands `true`. -/
theorem fullcontent_counterexample : ¬ C2ClaimAt c2Content "Quarterly Report" := by
  unfold C2ClaimAt
  decide

/-- C2 amended: `isFullContent` is `false` for empty content, whenever the
content matches one of the markers read more / continue reading / full story
/ view more (case-insensitively), and whenever the plain text contains the
three-dot sequence anywhere or ends with the mojibake ellipsis `â€¦`;
otherwise it is `true` exactly when the plain-text word count is at least
250 and the character count at least 1000. -/
theorem fullcontent_amended :
    ∀ content title : String,
      isFullContent content title =
        (!content.data.isEmpty &&
          !(readMoreMarkers.any (fun m => containsCI content m)) &&
          !(containsL "...".data (trimL (stripTagsL content.data)) ||
            endsWithL (trimL (stripTagsL content.data)) brokenEllipsis.data) &&
          decide (250 ≤ jsSplitWsLenL (trimL (stripTagsL content.data))) &&
          decide (1000 ≤ (trimL (stripTagsL content.data)).length)) := by
  intro content title
  simp only [isFullContent]
  cases hE : content.data.isEmpty <;>
    cases hR : readMoreMarkers.any (fun m => containsCI content m) <;>
      cases hA : (containsL "...".data (trimL (stripTagsL content.data)) ||
          endsWithL (trimL (stripTagsL content.data)) brokenEllipsis.data) <;>
        cases hW : decide (250 ≤ jsSplitWsLenL (trimL (stripTagsL content.data))) <;>
          cases hC : decide (1000 ≤ (trimL (stripTagsL content.data)).length) <;>
            simp [hE, hR, hA, hW, hC]

/-- C5 counterexample: for the seven-character input the target is 200, but
the whole text is a single short sentence, so the fallback summary is the
text itself — far below `0.8 * 200` — and it starts with a digit, not a
capital letter.  Both the length bound and the capital-letter clause of the
claim fail (the terminal-punctuation clause alone holds). -/
theorem summarizer_counterexample : ¬ C5ClaimAt "3 dead." := by
  unfold C5ClaimAt
  decide

/-- C5 amended: for every input the fallback extractive summary is
non-empty, ends in `.`, `!` or `?`, and its first character is never a
lowercase letter (it is upper-cased, but need not be a letter at all); the
`0.8 * max(L/4, 200)` length lower bound does not hold in general — it
fails whenever the input offers too little sentence material. -/
theorem summarizer_fallback_amended :
    ∀ text : String,
      (summarizeFallback text).data ≠ [] ∧
      endsTermL (summarizeFallback text).data = true ∧
      isLowerAZ ((summarizeFallback text).data.headD 'A') = false := by
  intro text
  exact cleanSummary_props
    (selectedSummaryRaw (prepareTextForSummarization text) (targetLengthOf text))

end PulsePress
